import Mathlib

/-!
Verification of the travel-planner geo-proximity and route-optimization core

Shallow embedding of the route-optimization engine of the repository
(`src/lib/routeOptimizer.ts`), the proximity/places handler
(`api/places.ts`), and the ETA helpers (`etaMins` in `index.tsx` and the
AI handler), together with proofs of the claims the spec makes about them.

Numbers are modelled as rationals (`ℚ`): the JavaScript source performs
ordinary IEEE arithmetic, and every claim proved here is about the exact
arithmetic structure of the algorithms (sums of legs, rounding at
the end, ordering, permutations), not about floating-point error.

The haversine `calculateDistance` of the source is a transcendental
real-valued function (sin/cos/atan2/sqrt); every claim treated here is
independent of the particular metric, so the development is parametric
in a distance function `dist : Coord → Coord → ℚ`. Concrete witnesses
instantiate `dist` with an executable metric (`taxicabKm`).
-/

namespace TravelPlanner

/-- A coordinate pair, decimal degrees (`{lat, lng}` in the source). -/
structure Coord where
  lat : ℚ
  lng : ℚ
  deriving DecidableEq, Repr

/-- Type `SelectedItem` from `src/lib/types.ts`: a venue with an identity `name`,
optional coordinates, and opaque pass-through display metadata (here
represented by the `area` field; the core never reads it). -/
structure SelectedItem where
  name : String
  lat : Option ℚ
  lng : Option ℚ
  area : Option String := none
  deriving DecidableEq, Repr

/-- Fallback element used to model JavaScript indexing; every access in the
development is proved in-bounds, so the fallback is never reached. -/
def dummyItem : SelectedItem :=
  { name := "", lat := none, lng := none }

/-- Travel mode, the `"walk" | "drive"` union of the source. -/
inductive Mode where
  | walk : Mode
  | drive : Mode
  deriving DecidableEq, Repr

/-- Function `Math.round` of JavaScript: round half toward positive infinity. -/
def jsRound (q : ℚ) : ℤ :=
  ⌊q + 1 / 2⌋

/-- Expression `Math.round(x * 100) / 100` of the source: round to 2 decimal places. -/
def round2 (q : ℚ) : ℚ :=
  (jsRound (q * 100) : ℚ) / 100

/-- Nominal speeds of `estimateTime` in `src/lib/routeOptimizer.ts`:
`mode === "walk" ? 5 : 30` (km/h). -/
def speedKmh : Mode → ℚ
  | .walk => 5
  | .drive => 30

/-- Function `estimateTime` from `src/lib/routeOptimizer.ts`:
`(distance / speed) * 60` minutes. Note: no rounding and no floor. -/
def estimateTime (distance : ℚ) (mode : Mode) : ℚ :=
  distance / speedKmh mode * 60

/-- Speeds of the `etaMins` of the UI (`src/index.tsx`, also the AI handler):
`mode === "walk" ? 5 : 35` (km/h). -/
def speedKmhUi : Mode → ℚ
  | .walk => 5
  | .drive => 35

/-- Function `etaMins` from `src/index.tsx`: `Math.round((km / speedKmh) * 60)`,
no 1-minute floor. -/
def etaMinsUi (mode : Mode) (km : ℚ) : ℤ :=
  jsRound (km / speedKmhUi mode * 60)

/-- Function `etaMins` from the AI handler (`unnamed/part_002`):
`Math.max(1, Math.round((km / speedKmh) * 60))`, speeds 5/35. -/
def etaMinsAi (mode : Mode) (km : ℚ) : ℤ :=
  max 1 (jsRound (km / speedKmhUi mode * 60))

/-- JavaScript truthiness of an optional number: `undefined` and `0` are
falsy. Models the `p.lat && p.lng` coordinate-validity test. -/
def truthy : Option ℚ → Bool
  | none => false
  | some x => x != 0

/-- The validity filter of `optimizeRoute`: `places.filter(p => p.lat && p.lng)`. -/
def validCoords (p : SelectedItem) : Bool :=
  truthy p.lat && truthy p.lng

/-- Coordinates of a venue that passed the validity filter (the source
reads them with the `!` assertion operator). -/
def coordOf (p : SelectedItem) : Coord :=
  { lat := p.lat.getD 0, lng := p.lng.getD 0 }

/-- The scan of the nearest-neighbor selection loop in `optimizeRoute`
(`for (let i = 1; ...) if (dist < nearestDist) ...`): walks the list of
still-unscanned venues, carrying the running index `i` and the best
index/distance pair so far; a strictly smaller distance updates the best,
so ties keep the earlier index. -/
def scanNearest (dist : Coord → Coord → ℚ) (c : Coord) :
    List SelectedItem → ℕ → ℕ → ℚ → ℕ × ℚ
  | [], _, bi, bd => (bi, bd)
  | p :: rest, i, bi, bd =>
    let d := dist c (coordOf p)
    if d < bd then scanNearest dist c rest (i + 1) i d
    else scanNearest dist c rest (i + 1) bi bd

/-- The full nearest scan of `optimizeRoute`: best index starts at 0 with the
distance to the first remaining venue, then the loop runs from index 1. -/
def findNearest (dist : Coord → Coord → ℚ) (c : Coord) :
    List SelectedItem → ℕ × ℚ
  | [] => (0, 0)
  | p :: rest => scanNearest dist c rest 1 0 (dist c (coordOf p))

/-- Fuel-indexed form of the `while (remaining.length > 0)` loop of
`optimizeRoute`: pick the nearest remaining venue, append it, remove it,
advance the current position, accumulate distance and time. Returns
(optimized order, total distance, total time). The fuel is always
instantiated with the pool length, which bounds the iteration count. -/
def nnLoopN (dist : Coord → Coord → ℚ) (mode : Mode) :
    ℕ → Coord → List SelectedItem → List SelectedItem × ℚ × ℚ
  | 0, _, _ => ([], 0, 0)
  | _ + 1, _, [] => ([], 0, 0)
  | n + 1, c, p :: rest =>
    let fn := findNearest dist c (p :: rest)
    let chosen := (p :: rest).getD fn.1 dummyItem
    let r := nnLoopN dist mode n (coordOf chosen) ((p :: rest).eraseIdx fn.1)
    (chosen :: r.1, fn.2 + r.2.1, estimateTime fn.2 mode + r.2.2)

/-- The nearest-neighbor loop of `optimizeRoute`, run to exhaustion of the
remaining pool. -/
def nnLoop (dist : Coord → Coord → ℚ) (mode : Mode) (c : Coord)
    (pool : List SelectedItem) : List SelectedItem × ℚ × ℚ :=
  nnLoopN dist mode pool.length c pool

/-- Type `RouteOptimization` from `src/lib/types.ts` (as used by
`routeOptimizer.ts`): original and optimized orders plus rounded totals. -/
structure RouteOptimization where
  originalOrder : List SelectedItem
  optimizedOrder : List SelectedItem
  totalTime : ℤ
  totalDistance : ℚ
  deriving DecidableEq, Repr

/-- Function `optimizeRoute` from `src/lib/routeOptimizer.ts`, parametric in the
haversine distance `dist`. Small inputs (≤ 2 venues, or ≤ 2 venues with
truthy coordinates) are returned unchanged with zero totals. Otherwise,
with a start point the first chosen venue is the nearest to the start
(this leg is accumulated); without one, the first valid venue starts the
route with no initial leg; the remaining venues follow by the
nearest-neighbor loop. `Math.round` is applied to the total time and
2-decimal rounding to the total distance. -/
def optimizeRoute (dist : Coord → Coord → ℚ) (places : List SelectedItem)
    (startPoint : Option Coord) (mode : Mode) : RouteOptimization :=
  if places.length ≤ 2 then
    { originalOrder := places, optimizedOrder := places,
      totalTime := 0, totalDistance := 0 }
  else
    let validPlaces := places.filter validCoords
    if validPlaces.length ≤ 2 then
      { originalOrder := places, optimizedOrder := places,
        totalTime := 0, totalDistance := 0 }
    else
      match startPoint with
      | some sp =>
        let fn := findNearest dist sp validPlaces
        let chosen := validPlaces.getD fn.1 dummyItem
        let r := nnLoop dist mode (coordOf chosen) (validPlaces.eraseIdx fn.1)
        { originalOrder := places, optimizedOrder := chosen :: r.1,
          totalTime := jsRound (estimateTime fn.2 mode + r.2.2),
          totalDistance := round2 (fn.2 + r.2.1) }
      | none =>
        match validPlaces with
        | [] =>
          -- unreachable: guarded by 2 < validPlaces.length
          { originalOrder := places, optimizedOrder := [],
            totalTime := 0, totalDistance := 0 }
        | p :: rest =>
          let r := nnLoop dist mode (coordOf p) rest
          { originalOrder := places, optimizedOrder := p :: r.1,
            totalTime := jsRound r.2.2, totalDistance := round2 r.2.1 }

/-- An executable metric on coordinates used to instantiate the parametric
distance in concrete witnesses. -/
def taxicabKm (a b : Coord) : ℚ :=
  |a.lat - b.lat| + |a.lng - b.lng|

/-- The consecutive legs of a route: distance from the running position to
each venue in turn (`c` is the position before the first venue). -/
def routeLegs (dist : Coord → Coord → ℚ) (c : Coord) :
    List SelectedItem → List ℚ
  | [] => []
  | p :: rest => dist c (coordOf p) :: routeLegs dist (coordOf p) rest

/-- The legs of an ordered venue sequence: with a start point, an initial
leg from it to the first venue; without one, legs begin at the first
own position of the first venue. -/
def legsOf (dist : Coord → Coord → ℚ) (startPoint : Option Coord)
    (vs : List SelectedItem) : List ℚ :=
  match startPoint, vs with
  | some sp, vs => routeLegs dist sp vs
  | none, [] => []
  | none, p :: rest => routeLegs dist (coordOf p) rest

/-- Totals of a route evaluation: `{totalTime, totalDistance}`. -/
structure RouteTotals where
  totalTime : ℤ
  totalDistance : ℚ
  deriving DecidableEq, Repr

/-- Modelled from the spec: `calculateRouteTotals` is imported from
`./lib/routeOptimizer` by the day-planner UI, but its definition is absent
from the sources (only the import and call sites exist). Per spec §4.4 it
walks the given sequence leg-by-leg — including the leg from `startPoint`
to the first venue, if provided — summing `distanceKm`/`etaMinutes`
exactly as `optimizeRoute` does internally, with the same final rounding;
venues without usable coordinates are excluded as everywhere else in the
core (spec §7). -/
def calculateRouteTotals (dist : Coord → Coord → ℚ)
    (venues : List SelectedItem) (startPoint : Option Coord)
    (mode : Mode) : RouteTotals :=
  let legs := legsOf dist startPoint (venues.filter validCoords)
  { totalTime := jsRound (legs.map (estimateTime · mode)).sum,
    totalDistance := round2 legs.sum }

/-- Function `minutesToRadiusMeters` from `api/places.ts`:
`Math.max(1, Math.min(60, maxMins || 15))` minutes (note `||` replaces
only `0`, not negative values), times 80 m/min for walk or 700 m/min
otherwise, clamped to [500, 15000] meters. -/
def minutesToRadiusMeters (mode : String) (maxMins : ℚ) : ℚ :=
  let mins := max 1 (min 60 (if maxMins = 0 then 15 else maxMins))
  let meters := if mode = "walk" then mins * 80 else mins * 700
  max 500 (min 15000 meters)

/-- A raw provider (Google Places) result, restricted to the fields the
places handler reads for the claims at hand: `name` and
`geometry.location`. -/
structure PlaceResult where
  name : String
  lat : Option ℚ
  lng : Option ℚ
  deriving DecidableEq, Repr

/-- An item of the places handler response, restricted likewise. The
`within` field models the `meta` string of the handler
(`within ~N min mode (Rm)`), which is attached exactly when the nearby
search path is taken; it records the budget, mode string and radius the
string renders. -/
structure HandlerItem where
  name : String
  lat : Option ℚ
  lng : Option ℚ
  within : Option (ℚ × String × ℚ)
  deriving DecidableEq, Repr

/-- The normalization of one provider result in the places handler
(`api/places.ts`, `items = places.map(...)`): coordinates are copied from
`geometry.location`, and the meta note is attached when `useNearby`. -/
def toHandlerItem (useNearby : Bool) (mode : String) (maxMins : ℚ)
    (p : PlaceResult) : HandlerItem :=
  { name := p.name, lat := p.lat, lng := p.lng,
    within :=
      if useNearby then some (maxMins, mode, minutesToRadiusMeters mode maxMins)
      else none }

/-- The venue post-processing of the places handler: trim the provider
result list to `limit` (`places.slice(0, limit)`) and normalize each
entry. No distance or travel time is computed here: the travel-time
budget only influences the search radius sent to the provider. -/
def placesHandlerItems (results : List PlaceResult) (limit : ℕ)
    (useNearby : Bool) (mode : String) (maxMins : ℚ) : List HandlerItem :=
  (results.take limit).map (toHandlerItem useNearby mode maxMins)

/-- Modelled from the spec: `etaMinutes` of §4.1, the travel-time estimate
the proximity filter of the spec (§4.2 steps 2–3) attaches to each venue:
`round(distanceKm / speedKmh(mode) * 60)`, minimum 1 minute for any
nonzero distance. No such computation exists in the handler source; this
definition only states the filter claimed by the spec for comparison. -/
def specEtaMinutes (mode : Mode) (d : ℚ) : ℤ :=
  if d = 0 then 0 else max 1 (jsRound (d / speedKmh mode * 60))

/-- The claimed proximity-filter contract of the places handler (C2),
stated over the actual output of the handler on the nearby-search path: every
returned venue has coordinates and an estimated travel time within the
budget, the output is sorted ascending by that estimate, is capped at
`limit`, and omits a provider venue only if it lacked coordinates or
exceeded the budget. -/
def ProximityFilterClaim (dist : Coord → Coord → ℚ)
    (results : List PlaceResult) (center : Coord) (mode : Mode)
    (modeStr : String) (maxMins : ℚ) (limit : ℕ) : Prop :=
  let out := placesHandlerItems results limit true modeStr maxMins
  let eta : Option ℚ → Option ℚ → ℤ := fun la lo =>
    specEtaMinutes mode (dist center { lat := la.getD 0, lng := lo.getD 0 })
  (∀ it ∈ out, it.lat ≠ none ∧ it.lng ≠ none ∧ (eta it.lat it.lng : ℚ) ≤ maxMins) ∧
  List.Pairwise (fun a b => eta a.lat a.lng ≤ eta b.lat b.lng) out ∧
  out.length ≤ limit ∧
  ∀ p ∈ results, p.lat ≠ none → p.lng ≠ none → (eta p.lat p.lng : ℚ) ≤ maxMins →
    ∃ it ∈ out, it.name = p.name ∧ it.lat = p.lat ∧ it.lng = p.lng

/-- The claimed per-leg estimate contract of the route optimizer (C3):
an integer `round(d / speedKmh(mode) * 60)`, at least 1 minute whenever
`d > 0`. -/
def EstimateTimeClaim : Prop :=
  ∀ (mode : Mode) (d : ℚ),
    estimateTime d mode = (jsRound (d / speedKmh mode * 60) : ℚ) ∧
    (0 < d → 1 ≤ estimateTime d mode)

/-- Sample venue used in concrete witnesses. -/
def vA : SelectedItem := { name := "A", lat := some 1, lng := some 1 }

/-- Sample venue used in concrete witnesses. -/
def vB : SelectedItem := { name := "B", lat := some 1, lng := some 5 }

/-- Sample venue used in concrete witnesses. -/
def vC : SelectedItem := { name := "C", lat := some 1, lng := some 2 }

/-- Sample venue used in concrete witnesses. -/
def vD : SelectedItem := { name := "D", lat := some 10, lng := some 10 }

/-- Sample venue with a zero latitude (falsy in JavaScript), used in
concrete witnesses. -/
def vZero : SelectedItem := { name := "Z", lat := some 0, lng := some 3 }

/-- Sample provider result far from the origin, used in concrete
counterexamples. -/
def farPlace : PlaceResult := { name := "far", lat := some 100, lng := some 100 }

/-- Predicate `IsNNChain dist c pool order`: `order` visits all of `pool` by the
greedy nearest-neighbor rule starting from position `c` — each step picks
a remaining venue at minimum distance from the current position, at the
earliest position among the remaining venues achieving it (every
strictly earlier remaining venue is strictly farther). -/
def IsNNChain (dist : Coord → Coord → ℚ) :
    Coord → List SelectedItem → List SelectedItem → Prop
  | _, pool, [] => pool = []
  | c, pool, x :: xs =>
    ∃ i : Fin pool.length,
      pool.get i = x ∧
      (∀ j : Fin pool.length, dist c (coordOf x) ≤ dist c (coordOf (pool.get j))) ∧
      (∀ j : Fin pool.length, (j : ℕ) < (i : ℕ) →
        dist c (coordOf x) < dist c (coordOf (pool.get j))) ∧
      IsNNChain dist (coordOf x) (pool.eraseIdx i) xs

/-! ## Properties of the nearest scan -/

/-- Putting the `i`-th element of a list in front of the list with that element
removed permutes the list. -/
theorem getD_cons_eraseIdx_perm {α : Type} (d : α) :
    ∀ (l : List α) (i : ℕ), i < l.length → (l.getD i d :: l.eraseIdx i).Perm l := by
  intro l
  induction l with
  | nil => intro i hi; simp at hi
  | cons a l ih =>
    intro i hi
    match i with
    | 0 => simp [List.getD_cons_zero, List.eraseIdx_cons_zero]
    | j + 1 =>
      have hj : j < l.length := by simpa using hi
      simp only [List.getD_cons_succ, List.eraseIdx_cons_succ]
      exact List.Perm.trans (List.Perm.swap a (l.getD j d) (l.eraseIdx j)) ((ih j hj).cons a)

/-- Characterization of the scan `scanNearest dist c rest i bi bd` under the
invariant `bi < i`: the returned best distance never exceeds the incoming
one; the result is either the incoming pair or a strictly better scanned
element at running index `i + k`; the returned best is minimal among all
scanned elements; and every element scanned before the returned index is
strictly farther (the loop keeps the first minimum). -/
theorem scanNearest_spec (dist : Coord → Coord → ℚ) (c : Coord) :
    ∀ (rest : List SelectedItem) (i bi : ℕ) (bd : ℚ), bi < i →
      (scanNearest dist c rest i bi bd).2 ≤ bd ∧
      (scanNearest dist c rest i bi bd = (bi, bd) ∨
        ((scanNearest dist c rest i bi bd).2 < bd ∧
          ∃ k, k < rest.length ∧ (scanNearest dist c rest i bi bd).1 = i + k ∧
            (scanNearest dist c rest i bi bd).2 = dist c (coordOf (rest.getD k dummyItem)))) ∧
      (∀ k, k < rest.length →
        (scanNearest dist c rest i bi bd).2 ≤ dist c (coordOf (rest.getD k dummyItem))) ∧
      (∀ k, k < rest.length → i + k < (scanNearest dist c rest i bi bd).1 →
        (scanNearest dist c rest i bi bd).2 < dist c (coordOf (rest.getD k dummyItem))) := by
  intro rest
  induction rest with
  | nil =>
    intro i bi bd hbi
    refine ⟨le_refl _, Or.inl rfl, ?_, ?_⟩ <;> intro k hk <;> simp at hk
  | cons p rest ih =>
    intro i bi bd hbi
    simp only [scanNearest]
    by_cases hd : dist c (coordOf p) < bd
    · rw [if_pos hd]
      obtain ⟨hA, hB, hC, hD⟩ := ih (i + 1) i (dist c (coordOf p)) (Nat.lt_succ_self i)
      refine ⟨le_of_lt (lt_of_le_of_lt hA hd), ?_, ?_, ?_⟩
      · right
        rcases hB with heq | ⟨hlt, k, hk, h1, h2⟩
        · refine ⟨?_, 0, by simp, ?_, ?_⟩
          · rw [heq]; exact hd
          · rw [heq]; simp
          · rw [heq]; simp [List.getD_cons_zero]
        · exact ⟨lt_trans hlt hd, k + 1, by simpa using Nat.succ_lt_succ hk,
            by rw [h1]; omega, by simpa [List.getD_cons_succ] using h2⟩
      · intro k hk
        match k with
        | 0 => simpa [List.getD_cons_zero] using hA
        | j + 1 =>
          have hj : j < rest.length := by simpa using hk
          simpa [List.getD_cons_succ] using hC j hj
      · intro k hk hik
        match k with
        | 0 =>
          have : (scanNearest dist c rest (i + 1) i (dist c (coordOf p))).1 ≠ i := by omega
          rcases hB with heq | ⟨hlt, _⟩
          · exact absurd (by rw [heq]) this
          · simpa [List.getD_cons_zero] using hlt
        | j + 1 =>
          have hj : j < rest.length := by simpa using hk
          have : (i + 1) + j < (scanNearest dist c rest (i + 1) i (dist c (coordOf p))).1 := by
            omega
          simpa [List.getD_cons_succ] using hD j hj this
    · rw [if_neg hd]
      push_neg at hd
      obtain ⟨hA, hB, hC, hD⟩ := ih (i + 1) bi bd (Nat.lt_succ_of_lt hbi)
      refine ⟨hA, ?_, ?_, ?_⟩
      · rcases hB with heq | ⟨hlt, k, hk, h1, h2⟩
        · exact Or.inl heq
        · exact Or.inr ⟨hlt, k + 1, by simpa using Nat.succ_lt_succ hk,
            by rw [h1]; omega, by simpa [List.getD_cons_succ] using h2⟩
      · intro k hk
        match k with
        | 0 => simpa [List.getD_cons_zero] using le_trans hA hd
        | j + 1 =>
          have hj : j < rest.length := by simpa using hk
          simpa [List.getD_cons_succ] using hC j hj
      · intro k hk hik
        match k with
        | 0 =>
          have hne : (scanNearest dist c rest (i + 1) bi bd).1 ≠ bi := by omega
          rcases hB with heq | ⟨hlt, _⟩
          · exact absurd (by rw [heq]) hne
          · simpa [List.getD_cons_zero] using lt_of_lt_of_le hlt hd
        | j + 1 =>
          have hj : j < rest.length := by simpa using hk
          have : (i + 1) + j < (scanNearest dist c rest (i + 1) bi bd).1 := by omega
          simpa [List.getD_cons_succ] using hD j hj this

/-- Characterization of `findNearest` on a nonempty pool: the returned index
is in bounds, the returned distance is the distance to the venue at that
index, it is minimal over the pool, and every venue at a strictly earlier
index is strictly farther. -/
theorem findNearest_spec (dist : Coord → Coord → ℚ) (c : Coord) (p : SelectedItem)
    (rest : List SelectedItem) :
    (findNearest dist c (p :: rest)).1 < (p :: rest).length ∧
    (findNearest dist c (p :: rest)).2 =
      dist c (coordOf ((p :: rest).getD (findNearest dist c (p :: rest)).1 dummyItem)) ∧
    (∀ k, k < (p :: rest).length →
      (findNearest dist c (p :: rest)).2 ≤ dist c (coordOf ((p :: rest).getD k dummyItem))) ∧
    (∀ k, k < (findNearest dist c (p :: rest)).1 →
      (findNearest dist c (p :: rest)).2 < dist c (coordOf ((p :: rest).getD k dummyItem))) := by
  obtain ⟨hA, hB, hC, hD⟩ :=
    scanNearest_spec dist c rest 1 0 (dist c (coordOf p)) Nat.one_pos
  simp only [findNearest]
  refine ⟨?_, ?_, ?_, ?_⟩
  · rcases hB with heq | ⟨_, k, hk, h1, _⟩
    · rw [heq]; simp
    · rw [h1]; simp only [List.length_cons]; omega
  · rcases hB with heq | ⟨_, k, _, h1, h2⟩
    · rw [heq]; simp [List.getD_cons_zero]
    · rw [h1, h2]
      have : 1 + k = k + 1 := by omega
      rw [this, List.getD_cons_succ]
  · intro k hk
    match k with
    | 0 => simpa [List.getD_cons_zero] using hA
    | j + 1 =>
      have hj : j < rest.length := by simpa using hk
      simpa [List.getD_cons_succ] using hC j hj
  · intro k hk
    match k with
    | 0 =>
      rcases hB with heq | ⟨hlt, _⟩
      · rw [heq] at hk; simp at hk
      · simpa [List.getD_cons_zero] using hlt
    | j + 1 =>
      have hub : (scanNearest dist c rest 1 0 (dist c (coordOf p))).1 ≤ rest.length := by
        rcases hB with heq | ⟨_, k0, hk0, h1, _⟩
        · rw [heq]; simp
        · rw [h1]; omega
      have hj : j < rest.length := by omega
      have : 1 + j < (scanNearest dist c rest 1 0 (dist c (coordOf p))).1 := by omega
      simpa [List.getD_cons_succ] using hD j hj this

/-- The fuel of `nnLoopN` is irrelevant as long as it covers the pool
length: the loop runs exactly once per pool element. -/
theorem nnLoopN_congr (dist : Coord → Coord → ℚ) (mode : Mode) :
    ∀ (n m : ℕ) (c : Coord) (pool : List SelectedItem),
      pool.length ≤ n → pool.length ≤ m →
      nnLoopN dist mode n c pool = nnLoopN dist mode m c pool := by
  intro n
  induction n with
  | zero =>
    intro m c pool hn _
    have hp : pool = [] := by cases pool <;> simp_all
    subst hp
    cases m <;> rfl
  | succ n ih =>
    intro m c pool hn hm
    cases pool with
    | nil => cases m <;> rfl
    | cons p rest =>
      cases m with
      | zero => simp at hm
      | succ m =>
        have hfn := (findNearest_spec dist c p rest).1
        have hlen : ((p :: rest).eraseIdx (findNearest dist c (p :: rest)).1).length ≤ n := by
          rw [List.length_eraseIdx_of_lt hfn]
          simpa using Nat.le_of_succ_le_succ hn
        have hlen2 : ((p :: rest).eraseIdx (findNearest dist c (p :: rest)).1).length ≤ m := by
          rw [List.length_eraseIdx_of_lt hfn]
          simpa using Nat.le_of_succ_le_succ hm
        simp only [nnLoopN]
        rw [ih m _ _ hlen hlen2]

/-- Invariants of the nearest-neighbor loop: the produced order is a
permutation of the pool, the accumulated distance and time are exactly the
sums over the consecutive legs of the produced order, and the produced
order is a greedy nearest-neighbor chain through the pool. -/
theorem nnLoopN_spec (dist : Coord → Coord → ℚ) (mode : Mode) :
    ∀ (n : ℕ) (c : Coord) (pool : List SelectedItem), pool.length ≤ n →
      (nnLoopN dist mode n c pool).1.Perm pool ∧
      (nnLoopN dist mode n c pool).2.1 =
        (routeLegs dist c (nnLoopN dist mode n c pool).1).sum ∧
      (nnLoopN dist mode n c pool).2.2 =
        ((routeLegs dist c (nnLoopN dist mode n c pool).1).map
          (estimateTime · mode)).sum ∧
      IsNNChain dist c pool (nnLoopN dist mode n c pool).1 := by
  intro n
  induction n with
  | zero =>
    intro c pool hn
    have hp : pool = [] := by cases pool <;> simp_all
    subst hp
    exact ⟨List.Perm.refl _, by simp [nnLoopN, routeLegs], by simp [nnLoopN, routeLegs],
      by simp [nnLoopN, IsNNChain]⟩
  | succ n ih =>
    intro c pool hn
    cases pool with
    | nil =>
      exact ⟨List.Perm.refl _, by simp [nnLoopN, routeLegs], by simp [nnLoopN, routeLegs],
        by simp [nnLoopN, IsNNChain]⟩
    | cons p rest =>
      obtain ⟨hflt, hfd, hfmin, hffst⟩ := findNearest_spec dist c p rest
      have hlen : ((p :: rest).eraseIdx (findNearest dist c (p :: rest)).1).length ≤ n := by
        rw [List.length_eraseIdx_of_lt hflt]
        simpa using Nat.le_of_succ_le_succ hn
      obtain ⟨ihP, ihD, ihT, ihC⟩ :=
        ih (coordOf ((p :: rest).getD (findNearest dist c (p :: rest)).1 dummyItem))
          ((p :: rest).eraseIdx (findNearest dist c (p :: rest)).1) hlen
      simp only [nnLoopN]
      refine ⟨?_, ?_, ?_, ?_⟩
      · exact (ihP.cons _).trans (getD_cons_eraseIdx_perm dummyItem (p :: rest) _ hflt)
      · simp only [routeLegs, List.sum_cons]
        rw [ihD, hfd]
      · simp only [routeLegs, List.map_cons, List.sum_cons]
        rw [ihT, hfd]
      · have hfd2 : (findNearest dist c (p :: rest)).2 =
            dist c (coordOf ((p :: rest)[(findNearest dist c (p :: rest)).1])) := by
          rw [hfd, List.getD_eq_getElem _ dummyItem hflt]
        refine ⟨⟨(findNearest dist c (p :: rest)).1, hflt⟩, ?_, ?_, ?_, ?_⟩
        · simp only [List.get_eq_getElem]
          exact (List.getD_eq_getElem _ dummyItem hflt).symm
        · intro j
          simp only [List.get_eq_getElem]
          rw [List.getD_eq_getElem _ dummyItem hflt, ← hfd2]
          have hmin := hfmin j.1 j.isLt
          rw [List.getD_eq_getElem _ dummyItem j.isLt] at hmin
          exact hmin
        · intro j hj
          simp only [List.get_eq_getElem]
          rw [List.getD_eq_getElem _ dummyItem hflt, ← hfd2]
          have hfst := hffst j.1 hj
          rw [List.getD_eq_getElem _ dummyItem j.isLt] at hfst
          exact hfst
        · exact ihC

/-- One unfolding of the nearest-neighbor loop on a nonempty pool. -/
theorem nnLoop_cons (dist : Coord → Coord → ℚ) (mode : Mode) (c : Coord)
    (p : SelectedItem) (rest : List SelectedItem) :
    nnLoop dist mode c (p :: rest) =
      ((p :: rest).getD (findNearest dist c (p :: rest)).1 dummyItem ::
        (nnLoop dist mode
          (coordOf ((p :: rest).getD (findNearest dist c (p :: rest)).1 dummyItem))
          ((p :: rest).eraseIdx (findNearest dist c (p :: rest)).1)).1,
       (findNearest dist c (p :: rest)).2 +
        (nnLoop dist mode
          (coordOf ((p :: rest).getD (findNearest dist c (p :: rest)).1 dummyItem))
          ((p :: rest).eraseIdx (findNearest dist c (p :: rest)).1)).2.1,
       estimateTime (findNearest dist c (p :: rest)).2 mode +
        (nnLoop dist mode
          (coordOf ((p :: rest).getD (findNearest dist c (p :: rest)).1 dummyItem))
          ((p :: rest).eraseIdx (findNearest dist c (p :: rest)).1)).2.2) := by
  have hflt := (findNearest_spec dist c p rest).1
  have hlen : ((p :: rest).eraseIdx (findNearest dist c (p :: rest)).1).length = rest.length := by
    rw [List.length_eraseIdx_of_lt hflt]; simp
  unfold nnLoop
  conv_lhs => rw [List.length_cons]
  simp only [nnLoopN]
  rw [hlen]

/-- On an input with more than 2 coordinate-valid venues and a start point,
`optimizeRoute` is the nearest-neighbor loop run from the start point over
the valid venues, with the final roundings. -/
theorem optimizeRoute_some_eq (dist : Coord → Coord → ℚ) (mode : Mode)
    (places : List SelectedItem) (sp : Coord)
    (h : 2 < (places.filter validCoords).length) :
    optimizeRoute dist places (some sp) mode =
      { originalOrder := places,
        optimizedOrder := (nnLoop dist mode sp (places.filter validCoords)).1,
        totalTime := jsRound (nnLoop dist mode sp (places.filter validCoords)).2.2,
        totalDistance := round2 (nnLoop dist mode sp (places.filter validCoords)).2.1 } := by
  have hplaces : ¬ places.length ≤ 2 := by
    have := List.length_filter_le validCoords places
    omega
  have hvalid : ¬ (places.filter validCoords).length ≤ 2 := by omega
  obtain ⟨p, rest, hv⟩ : ∃ p rest, places.filter validCoords = p :: rest := by
    cases hf : places.filter validCoords with
    | nil => rw [hf] at h; simp at h
    | cons p rest => exact ⟨p, rest, rfl⟩
  unfold optimizeRoute
  rw [if_neg hplaces, if_neg hvalid, hv, nnLoop_cons]

/-- On an input with more than 2 coordinate-valid venues and no start point,
`optimizeRoute` starts at the first valid venue (no initial leg) and runs
the nearest-neighbor loop over the remaining valid venues. -/
theorem optimizeRoute_none_eq (dist : Coord → Coord → ℚ) (mode : Mode)
    (places : List SelectedItem) (p : SelectedItem) (rest : List SelectedItem)
    (h : 2 < (places.filter validCoords).length)
    (hv : places.filter validCoords = p :: rest) :
    optimizeRoute dist places none mode =
      { originalOrder := places,
        optimizedOrder := p :: (nnLoop dist mode (coordOf p) rest).1,
        totalTime := jsRound (nnLoop dist mode (coordOf p) rest).2.2,
        totalDistance := round2 (nnLoop dist mode (coordOf p) rest).2.1 } := by
  have hplaces : ¬ places.length ≤ 2 := by
    have := List.length_filter_le validCoords places
    omega
  have hvalid : ¬ (places.filter validCoords).length ≤ 2 := by omega
  unfold optimizeRoute
  rw [if_neg hplaces, if_neg hvalid, hv]

/-- Lemma `nnLoopN_spec` specialized to the loop with its actual fuel. -/
theorem nnLoop_spec (dist : Coord → Coord → ℚ) (mode : Mode) (c : Coord)
    (pool : List SelectedItem) :
    (nnLoop dist mode c pool).1.Perm pool ∧
    (nnLoop dist mode c pool).2.1 = (routeLegs dist c (nnLoop dist mode c pool).1).sum ∧
    (nnLoop dist mode c pool).2.2 =
      ((routeLegs dist c (nnLoop dist mode c pool).1).map (estimateTime · mode)).sum ∧
    IsNNChain dist c pool (nnLoop dist mode c pool).1 := by
  unfold nnLoop
  exact nnLoopN_spec dist mode pool.length c pool (le_refl _)

/-- A filtered list with more than 2 elements is a cons. -/
theorem filter_valid_cons (places : List SelectedItem)
    (h : 2 < (places.filter validCoords).length) :
    ∃ p rest, places.filter validCoords = p :: rest := by
  cases hf : places.filter validCoords with
  | nil => rw [hf] at h; simp at h
  | cons p rest => exact ⟨p, rest, rfl⟩

/-- On large-enough input, the optimized order is a permutation of the
coordinate-valid venues. -/
theorem optimizeRoute_perm_filter (dist : Coord → Coord → ℚ)
    (places : List SelectedItem) (startPoint : Option Coord) (mode : Mode)
    (h : 2 < (places.filter validCoords).length) :
    (optimizeRoute dist places startPoint mode).optimizedOrder.Perm
      (places.filter validCoords) := by
  cases startPoint with
  | some sp =>
    rw [optimizeRoute_some_eq dist mode places sp h]
    exact (nnLoop_spec dist mode sp (places.filter validCoords)).1
  | none =>
    obtain ⟨p, rest, hv⟩ := filter_valid_cons places h
    rw [optimizeRoute_none_eq dist mode places p rest h hv, hv]
    exact ((nnLoop_spec dist mode (coordOf p) rest).1).cons p

/-- On large-enough input, the totals of the optimizer are the rounded sums over
the legs of its optimized order (with the initial leg exactly when a start
point is given). -/
theorem optimizeRoute_totals_eq (dist : Coord → Coord → ℚ)
    (places : List SelectedItem) (startPoint : Option Coord) (mode : Mode)
    (h : 2 < (places.filter validCoords).length) :
    (optimizeRoute dist places startPoint mode).totalTime =
      jsRound ((legsOf dist startPoint
        (optimizeRoute dist places startPoint mode).optimizedOrder).map
          (estimateTime · mode)).sum ∧
    (optimizeRoute dist places startPoint mode).totalDistance =
      round2 (legsOf dist startPoint
        (optimizeRoute dist places startPoint mode).optimizedOrder).sum := by
  cases startPoint with
  | some sp =>
    rw [optimizeRoute_some_eq dist mode places sp h]
    obtain ⟨_, hD, hT, _⟩ := nnLoop_spec dist mode sp (places.filter validCoords)
    exact ⟨by simp only [legsOf]; rw [hT], by simp only [legsOf]; rw [hD]⟩
  | none =>
    obtain ⟨p, rest, hv⟩ := filter_valid_cons places h
    rw [optimizeRoute_none_eq dist mode places p rest h hv]
    obtain ⟨_, hD, hT, _⟩ := nnLoop_spec dist mode (coordOf p) rest
    exact ⟨by simp only [legsOf]; rw [hT], by simp only [legsOf]; rw [hD]⟩

/-- On large-enough input, the optimized order is a greedy nearest-neighbor
chain: anchored at the start point over all valid venues when one is
given; otherwise headed by the first valid venue with the chain running
over the remaining valid venues. -/
theorem optimizeRoute_chain (dist : Coord → Coord → ℚ)
    (places : List SelectedItem) (startPoint : Option Coord) (mode : Mode)
    (h : 2 < (places.filter validCoords).length) :
    (∀ sp, startPoint = some sp →
      IsNNChain dist sp (places.filter validCoords)
        (optimizeRoute dist places startPoint mode).optimizedOrder) ∧
    (startPoint = none →
      ∃ p rest, places.filter validCoords = p :: rest ∧
        (optimizeRoute dist places startPoint mode).optimizedOrder =
          p :: ((optimizeRoute dist places startPoint mode).optimizedOrder).tail ∧
        IsNNChain dist (coordOf p) rest
          ((optimizeRoute dist places startPoint mode).optimizedOrder).tail) := by
  constructor
  · intro sp hsp
    subst hsp
    rw [optimizeRoute_some_eq dist mode places sp h]
    exact (nnLoop_spec dist mode sp (places.filter validCoords)).2.2.2
  · intro hnone
    subst hnone
    obtain ⟨p, rest, hv⟩ := filter_valid_cons places h
    rw [optimizeRoute_none_eq dist mode places p rest h hv]
    exact ⟨p, rest, hv, by simp, by
      simp only [List.tail_cons]
      exact (nnLoop_spec dist mode (coordOf p) rest).2.2.2⟩

/-! ## Claims about the route optimizer -/

/-- C7: for every input list containing 0, 1, or 2 coordinate-valid venues,
`optimizeRoute` returns `optimizedOrder` equal to `originalOrder` (the
input list in input order) with zero total time and distance. -/
theorem optimizeRoute_small_noop (dist : Coord → Coord → ℚ)
    (places : List SelectedItem) (startPoint : Option Coord) (mode : Mode)
    (h : (places.filter validCoords).length ≤ 2) :
    optimizeRoute dist places startPoint mode =
      { originalOrder := places, optimizedOrder := places,
        totalTime := 0, totalDistance := 0 } := by
  by_cases hp : places.length ≤ 2
  · simp only [optimizeRoute, if_pos hp]
  · simp only [optimizeRoute, if_neg hp, if_pos h]

/-- Witness for `optimizeRoute_small_noop` at a 3-venue input with exactly
2 coordinate-valid venues. -/
theorem optimizeRoute_small_noop_witness :
    ([vA, vZero, vB].filter validCoords).length ≤ 2 ∧
    optimizeRoute taxicabKm [vA, vZero, vB] none .walk =
      { originalOrder := [vA, vZero, vB], optimizedOrder := [vA, vZero, vB],
        totalTime := 0, totalDistance := 0 } :=
  ⟨by decide, optimizeRoute_small_noop taxicabKm [vA, vZero, vB] none .walk (by decide)⟩

/-- C6: for every input list with more than 2 coordinate-valid venues, the
optimized order is a permutation of exactly the coordinate-valid subset of
the input: no venue invented, none duplicated, none dropped except those
failing the coordinate filter. -/
theorem optimizeRoute_completeness (dist : Coord → Coord → ℚ)
    (places : List SelectedItem) (startPoint : Option Coord) (mode : Mode)
    (h : 2 < (places.filter validCoords).length) :
    (optimizeRoute dist places startPoint mode).optimizedOrder.Perm
      (places.filter validCoords) :=
  optimizeRoute_perm_filter dist places startPoint mode h

/-- Witness for `optimizeRoute_completeness` at a 4-venue input. -/
theorem optimizeRoute_completeness_witness :
    2 < ([vA, vB, vC, vD].filter validCoords).length ∧
    (optimizeRoute taxicabKm [vA, vB, vC, vD] none .walk).optimizedOrder.Perm
      ([vA, vB, vC, vD].filter validCoords) :=
  ⟨by decide, optimizeRoute_completeness taxicabKm [vA, vB, vC, vD] none .walk (by decide)⟩

/-- C4: for every input with more than 2 coordinate-valid venues, the
returned `totalTime` is the rounded sum of the per-leg travel-time
estimates and `totalDistance` the 2-decimal-rounded sum of the per-leg
distances, where the legs follow the optimized sequence and include an
initial leg from the start point exactly when one is provided. -/
theorem optimizeRoute_totals_correct (dist : Coord → Coord → ℚ)
    (places : List SelectedItem) (startPoint : Option Coord) (mode : Mode)
    (h : 2 < (places.filter validCoords).length) :
    (optimizeRoute dist places startPoint mode).totalTime =
      jsRound ((legsOf dist startPoint
        (optimizeRoute dist places startPoint mode).optimizedOrder).map
          (estimateTime · mode)).sum ∧
    (optimizeRoute dist places startPoint mode).totalDistance =
      round2 (legsOf dist startPoint
        (optimizeRoute dist places startPoint mode).optimizedOrder).sum :=
  optimizeRoute_totals_eq dist places startPoint mode h

/-- Witness for `optimizeRoute_totals_correct` at a 4-venue input with a
start point. -/
theorem optimizeRoute_totals_correct_witness :
    2 < ([vA, vB, vC, vD].filter validCoords).length ∧
    ((optimizeRoute taxicabKm [vA, vB, vC, vD] (some { lat := 1, lng := 4 }) .walk).totalTime =
      jsRound ((legsOf taxicabKm (some { lat := 1, lng := 4 })
        (optimizeRoute taxicabKm [vA, vB, vC, vD] (some { lat := 1, lng := 4 }) .walk).optimizedOrder).map
          (estimateTime · .walk)).sum ∧
    (optimizeRoute taxicabKm [vA, vB, vC, vD] (some { lat := 1, lng := 4 }) .walk).totalDistance =
      round2 (legsOf taxicabKm (some { lat := 1, lng := 4 })
        (optimizeRoute taxicabKm [vA, vB, vC, vD] (some { lat := 1, lng := 4 }) .walk).optimizedOrder).sum) :=
  ⟨by decide, optimizeRoute_totals_correct taxicabKm [vA, vB, vC, vD]
    (some { lat := 1, lng := 4 }) .walk (by decide)⟩

/-- C5: for every input with more than 2 coordinate-valid venues, the
optimized order is built greedily: with a start point, the first chosen
venue is the valid venue nearest the start point and each later one is the
remaining valid venue nearest the previous position, ties always resolved
to the earliest position in the remaining list; without a start point the
first valid venue in input order heads the route and the same greedy rule
orders the rest. -/
theorem optimizeRoute_greedy_selection (dist : Coord → Coord → ℚ)
    (places : List SelectedItem) (startPoint : Option Coord) (mode : Mode)
    (h : 2 < (places.filter validCoords).length) :
    (∀ sp, startPoint = some sp →
      IsNNChain dist sp (places.filter validCoords)
        (optimizeRoute dist places startPoint mode).optimizedOrder) ∧
    (startPoint = none →
      ∃ p rest, places.filter validCoords = p :: rest ∧
        (optimizeRoute dist places startPoint mode).optimizedOrder =
          p :: ((optimizeRoute dist places startPoint mode).optimizedOrder).tail ∧
        IsNNChain dist (coordOf p) rest
          ((optimizeRoute dist places startPoint mode).optimizedOrder).tail) :=
  optimizeRoute_chain dist places startPoint mode h

/-- Witness for `optimizeRoute_greedy_selection` at a 4-venue input with a
start point. -/
theorem optimizeRoute_greedy_selection_witness :
    2 < ([vA, vB, vC, vD].filter validCoords).length ∧
    (∀ sp, (some { lat := 1, lng := 4 } : Option Coord) = some sp →
      IsNNChain taxicabKm sp ([vA, vB, vC, vD].filter validCoords)
        (optimizeRoute taxicabKm [vA, vB, vC, vD] (some { lat := 1, lng := 4 }) .walk).optimizedOrder) ∧
    ((some { lat := 1, lng := 4 } : Option Coord) = none →
      ∃ p rest, [vA, vB, vC, vD].filter validCoords = p :: rest ∧
        (optimizeRoute taxicabKm [vA, vB, vC, vD] (some { lat := 1, lng := 4 }) .walk).optimizedOrder =
          p :: ((optimizeRoute taxicabKm [vA, vB, vC, vD] (some { lat := 1, lng := 4 }) .walk).optimizedOrder).tail ∧
        IsNNChain taxicabKm (coordOf p) rest
          ((optimizeRoute taxicabKm [vA, vB, vC, vD] (some { lat := 1, lng := 4 }) .walk).optimizedOrder).tail) :=
  ⟨by decide, optimizeRoute_greedy_selection taxicabKm [vA, vB, vC, vD]
    (some { lat := 1, lng := 4 }) .walk (by decide)⟩

/-- C10: on an input with more than 2 coordinate-valid venues, a venue whose
latitude or longitude is exactly 0 is excluded from the optimized order —
JavaScript truthiness makes `0` behave like a missing coordinate. -/
theorem optimizeRoute_excludes_zero_coords (dist : Coord → Coord → ℚ)
    (places : List SelectedItem) (startPoint : Option Coord) (mode : Mode)
    (v : SelectedItem) (h : 2 < (places.filter validCoords).length)
    (hv : v.lat = some 0 ∨ v.lng = some 0) :
    v ∉ (optimizeRoute dist places startPoint mode).optimizedOrder := by
  intro hmem
  have hperm := optimizeRoute_perm_filter dist places startPoint mode h
  have hvmem : v ∈ places.filter validCoords := hperm.mem_iff.mp hmem
  have hvalid : validCoords v = true := (List.mem_filter.mp hvmem).2
  rcases hv with h0 | h0 <;>
    simp [validCoords, truthy, h0] at hvalid

/-- Witness for `optimizeRoute_excludes_zero_coords`: a zero-latitude venue
among 4 valid ones is dropped. -/
theorem optimizeRoute_excludes_zero_coords_witness :
    2 < ([vA, vB, vZero, vC, vD].filter validCoords).length ∧
    (vZero.lat = some 0 ∨ vZero.lng = some 0) ∧
    vZero ∉ (optimizeRoute taxicabKm [vA, vB, vZero, vC, vD] none .walk).optimizedOrder :=
  ⟨by decide, by decide,
    optimizeRoute_excludes_zero_coords taxicabKm [vA, vB, vZero, vC, vD] none .walk vZero
      (by decide) (by decide)⟩

/-! ## Claims about the route evaluator and the scalar helpers -/

/-- C1 counterexample: on a 2-venue input the optimizer returns zero totals
(small-input no-op) while the evaluator walks the actual leg between the
two venues, so re-evaluating the own output of the optimizer does not
reproduce its totals. -/
theorem routeTotals_idempotence_counterexample :
    calculateRouteTotals taxicabKm
        (optimizeRoute taxicabKm [vA, vB] none .walk).optimizedOrder none .walk ≠
      { totalTime := (optimizeRoute taxicabKm [vA, vB] none .walk).totalTime,
        totalDistance := (optimizeRoute taxicabKm [vA, vB] none .walk).totalDistance } := by
  norm_num [calculateRouteTotals, optimizeRoute, validCoords, truthy, vA, vB, legsOf,
    routeLegs, coordOf, taxicabKm, estimateTime, speedKmh, jsRound, round2,
    RouteTotals.mk.injEq]

/-- C1 (amended): on inputs with more than 2 coordinate-valid venues —
where the optimizer actually optimizes — running the evaluator on the
`optimizedOrder` of the optimizer with the same start point and mode reproduces
exactly the `totalTime` and `totalDistance` of the optimizer. -/
theorem routeTotals_idempotent_on_optimized (dist : Coord → Coord → ℚ)
    (places : List SelectedItem) (startPoint : Option Coord) (mode : Mode)
    (h : 2 < (places.filter validCoords).length) :
    calculateRouteTotals dist
        (optimizeRoute dist places startPoint mode).optimizedOrder startPoint mode =
      { totalTime := (optimizeRoute dist places startPoint mode).totalTime,
        totalDistance := (optimizeRoute dist places startPoint mode).totalDistance } := by
  have hperm := optimizeRoute_perm_filter dist places startPoint mode h
  have hall : ∀ x ∈ (optimizeRoute dist places startPoint mode).optimizedOrder,
      validCoords x := by
    intro x hx
    exact (List.mem_filter.mp (hperm.mem_iff.mp hx)).2
  have hfilter :
      (optimizeRoute dist places startPoint mode).optimizedOrder.filter validCoords =
        (optimizeRoute dist places startPoint mode).optimizedOrder :=
    List.filter_eq_self.mpr hall
  obtain ⟨hT, hD⟩ := optimizeRoute_totals_eq dist places startPoint mode h
  simp only [calculateRouteTotals, hfilter]
  rw [hT, hD]

/-- Witness for `routeTotals_idempotent_on_optimized` at a 4-venue input
with a start point. -/
theorem routeTotals_idempotent_on_optimized_witness :
    2 < ([vA, vB, vC, vD].filter validCoords).length ∧
    calculateRouteTotals taxicabKm
        (optimizeRoute taxicabKm [vA, vB, vC, vD] (some { lat := 1, lng := 4 }) .walk).optimizedOrder
        (some { lat := 1, lng := 4 }) .walk =
      { totalTime := (optimizeRoute taxicabKm [vA, vB, vC, vD]
          (some { lat := 1, lng := 4 }) .walk).totalTime,
        totalDistance := (optimizeRoute taxicabKm [vA, vB, vC, vD]
          (some { lat := 1, lng := 4 }) .walk).totalDistance } :=
  ⟨by decide, routeTotals_idempotent_on_optimized taxicabKm [vA, vB, vC, vD]
    (some { lat := 1, lng := 4 }) .walk (by decide)⟩

/-- C3 counterexample: at distance 1/100 km (10 meters) walking, the
estimate of the optimizer is 3/25 of a minute — not the claimed integer
`round(d / speed * 60)` (which is 0) and not at least 1 minute. -/
theorem estimateTimeClaim_counterexample :
    (0 : ℚ) < 1/100 ∧
    estimateTime (1/100) .walk ≠ (jsRound ((1/100 : ℚ) / speedKmh .walk * 60) : ℚ) ∧
    ¬ (1 ≤ estimateTime (1/100) .walk) ∧
    ¬ EstimateTimeClaim := by
  have h2 : estimateTime (1/100) .walk ≠ (jsRound ((1/100 : ℚ) / speedKmh .walk * 60) : ℚ) := by
    norm_num [estimateTime, speedKmh, jsRound]
  have h3 : ¬ (1 ≤ estimateTime (1/100) .walk) := by
    norm_num [estimateTime, speedKmh]
  exact ⟨by norm_num, h2, h3, fun hc => h3 ((hc .walk (1/100)).2 (by norm_num))⟩

/-- C3 (amended): the per-leg estimate of the optimizer is exactly
`d / speedKmh(mode) * 60` (speeds 5 and 30 km/h) — positive for positive
distance and monotone in the distance, but a raw rational: no rounding and
no 1-minute floor. Rounding to whole minutes is done by the
`etaMins` of the UI (speeds 5 and 35 km/h), and only the variant of the AI handler
additionally floors the rounded value at 1 minute. -/
theorem estimateTime_unrounded_monotone (mode : Mode) (d e : ℚ) :
    estimateTime d mode = d / speedKmh mode * 60 ∧
    (0 < d → 0 < estimateTime d mode) ∧
    (d ≤ e → estimateTime d mode ≤ estimateTime e mode) ∧
    etaMinsAi mode d = max 1 (etaMinsUi mode d) := by
  have hs : 0 < speedKmh mode := by cases mode <;> norm_num [speedKmh]
  refine ⟨rfl, ?_, ?_, rfl⟩
  · intro hd
    exact mul_pos (div_pos hd hs) (by norm_num)
  · intro hde
    exact mul_le_mul_of_nonneg_right ((div_le_div_iff_of_pos_right hs).mpr hde) (by norm_num)

/-- Witness for `estimateTime_unrounded_monotone` at distances 1 and 2 km
walking. -/
theorem estimateTime_unrounded_monotone_witness :
    estimateTime 1 .walk = 1 / speedKmh .walk * 60 ∧
    (0 : ℚ) < 1 ∧ (1 : ℚ) ≤ 2 ∧
    0 < estimateTime 1 .walk ∧
    estimateTime 1 .walk ≤ estimateTime 2 .walk ∧
    etaMinsAi .walk 1 = max 1 (etaMinsUi .walk 1) := by
  obtain ⟨h0, h1, h2, h3⟩ := estimateTime_unrounded_monotone .walk 1 2
  exact ⟨h0, by norm_num, by norm_num, h1 (by norm_num), h2 (by norm_num), h3⟩

/-- C8 counterexample: a negative budget is not treated as the default 15
minutes — `-5 || 15` keeps `-5` in JavaScript (only `0` is falsy), which
is then clamped to 1 minute, giving a 500 m radius instead of 1200 m. -/
theorem minutesToRadius_negative_counterexample :
    (-5 : ℚ) ≤ 0 ∧
    minutesToRadiusMeters "walk" (-5) ≠ minutesToRadiusMeters "walk" 15 := by
  constructor
  · norm_num
  · norm_num [minutesToRadiusMeters]

/-- C8 (amended): a budget of exactly 0 falls back to the default of 15
minutes, but a negative budget is clamped to 1 minute — it behaves as a
budget of 1, not as the default. -/
theorem minutesToRadius_zero_default_negative_clamp (mode : String) (m : ℚ) :
    minutesToRadiusMeters mode 0 = minutesToRadiusMeters mode 15 ∧
    (m < 0 → minutesToRadiusMeters mode m = minutesToRadiusMeters mode 1) := by
  constructor
  · norm_num [minutesToRadiusMeters]
  · intro hm
    have hne : m ≠ 0 := ne_of_lt hm
    have hmin : min (60 : ℚ) m = m := min_eq_right (by linarith)
    have hmax : max (1 : ℚ) m = 1 := max_eq_left (by linarith)
    simp only [minutesToRadiusMeters, if_neg hne, hmin, hmax]
    norm_num

/-- Witness for `minutesToRadius_zero_default_negative_clamp` at mode
`"walk"` and budget `-3`. -/
theorem minutesToRadius_zero_default_negative_clamp_witness :
    minutesToRadiusMeters "walk" 0 = minutesToRadiusMeters "walk" 15 ∧
    ((-3 : ℚ) < 0) ∧
    minutesToRadiusMeters "walk" (-3) = minutesToRadiusMeters "walk" 1 := by
  obtain ⟨h1, h2⟩ := minutesToRadius_zero_default_negative_clamp "walk" (-3)
  exact ⟨h1, by norm_num, h2 (by norm_num)⟩

/-- C2 counterexample: the places handler performs no local travel-time
filtering — a provider result 200 km (by the instantiated metric) from the
center survives a 15-minute walking budget, violating the claimed
`estimatedMinutes ≤ maxMinutes` bound on every returned venue. -/
theorem proximityFilterClaim_counterexample :
    ¬ ProximityFilterClaim taxicabKm [farPlace] { lat := 0, lng := 0 } .walk "walk" 15 10 := by
  intro hc
  obtain ⟨h1, -, -, -⟩ := hc
  have hmem : toHandlerItem true "walk" 15 farPlace ∈
      placesHandlerItems [farPlace] 10 true "walk" 15 := by
    simp [placesHandlerItems]
  have hbound := (h1 _ hmem).2.2
  norm_num [toHandlerItem, farPlace, specEtaMinutes, taxicabKm, jsRound, speedKmh] at hbound

/-- C2 (amended): the places handler returns the first `limit` provider
results in provider order, names and coordinates passed through verbatim
(plus a meta note when the nearby path is taken); it computes no
`estimatedMinutes`, applies no budget filter and no sort — the travel-time
budget only shapes the radius delegated to the provider. -/
theorem placesHandler_passthrough (results : List PlaceResult) (limit : ℕ)
    (useNearby : Bool) (mode : String) (maxMins : ℚ) :
    (placesHandlerItems results limit useNearby mode maxMins).length =
      min limit results.length ∧
    ∀ i (hi : i < (placesHandlerItems results limit useNearby mode maxMins).length)
      (hr : i < results.length),
      (placesHandlerItems results limit useNearby mode maxMins).get ⟨i, hi⟩ =
        toHandlerItem useNearby mode maxMins (results.get ⟨i, hr⟩) := by
  constructor
  · simp [placesHandlerItems]
  · intro i hi hr
    simp only [placesHandlerItems, List.get_eq_getElem, List.getElem_map, List.getElem_take]

/-- Witness for `placesHandler_passthrough` at a singleton provider list. -/
theorem placesHandler_passthrough_witness :
    (placesHandlerItems [farPlace] 10 true "walk" 15).length =
      min 10 ([farPlace] : List PlaceResult).length ∧
    0 < (placesHandlerItems [farPlace] 10 true "walk" 15).length ∧
    0 < ([farPlace] : List PlaceResult).length ∧
    (placesHandlerItems [farPlace] 10 true "walk" 15).get ⟨0, by decide⟩ =
      toHandlerItem true "walk" 15 (([farPlace] : List PlaceResult).get ⟨0, by decide⟩) :=
  ⟨(placesHandler_passthrough [farPlace] 10 true "walk" 15).1, by decide, by decide,
    (placesHandler_passthrough [farPlace] 10 true "walk" 15).2 0 (by decide) (by decide)⟩

end TravelPlanner
